import Mathlib

/-!
# Verification of the MEDOC face-attendance system

Shallow embedding of the repository's core logic:

* `src/attendance.py`  — JSON-file attendance tracker (`AttendanceTracker`),
* `src/database.py`    — SQLite attendance tracker (`AttendanceTracker`),
* `src/face_system.py` — face enrollment / training / recognition (`FaceSystem`).

Conventions of the embedding:

* Python `dict`s are insertion-ordered association lists (`alookup` / `aset`
  mirror `d[k]` reads and writes: an existing key keeps its position, a new
  key is appended — exactly CPython ≥ 3.7 semantics).
* Dates (`'%Y-%m-%d'` strings) are modelled as day numbers `Nat`; ISO date
  strings compare lexicographically exactly as their day numbers compare.
* Times of day (`'%H:%M:%S'` strings) are modelled as a second-of-day `Nat`
  together with the rendering function `fmtTime`, which produces the exact
  `%H:%M:%S` string the Python code stores and prints.
* Image frames, detected face regions and the OpenCV LBPH recognizer state
  are external collaborators (cv2); they are opaque type parameters, and
  `cv2` calls (`detectMultiScale` selection wrapper `detect_face`,
  `recognizer.predict`, `recognizer.train`) are function parameters.
-/

namespace Spec2Proof

/-- Association-list read, first match wins: Python `d.get(k)` / `k in d`. -/
def alookup {κ β : Type} [DecidableEq κ] : List (κ × β) → κ → Option β
  | [], _ => none
  | p :: l, k => if p.1 = k then some p.2 else alookup l k

/-- Association-list write, Python `d[k] = v`: an existing key keeps its
position, a new key is appended at the end. -/
def aset {κ β : Type} [DecidableEq κ] : List (κ × β) → κ → β → List (κ × β)
  | [], k, v => [(k, v)]
  | p :: l, k, v => if p.1 = k then (k, v) :: l else p :: aset l k v

/-- The fixed punch-type enumeration `{in, out, break, lunch}`. -/
inductive PunchType : Type
  | pIn
  | pOut
  | pBreak
  | pLunch
deriving DecidableEq, Repr

/-- The string the Python code uses for each punch type. -/
def PunchType.str : PunchType → String
  | .pIn => "in"
  | .pOut => "out"
  | .pBreak => "break"
  | .pLunch => "lunch"

/-- Zero-padded two-digit rendering, as in `strftime`. -/
def pad2 (n : Nat) : String :=
  if n < 10 then "0" ++ toString n else toString n

/-- `strftime('%H:%M:%S')` for a second-of-day. -/
def fmtTime (sec : Nat) : String :=
  pad2 (sec / 3600) ++ ":" ++ pad2 (sec % 3600 / 60) ++ ":" ++ pad2 (sec % 60)

/-- A `datetime` instant: day number (the `'%Y-%m-%d'` date) and
second-of-day (the `'%H:%M:%S'` time). -/
structure DateTime where
  day : Nat
  sec : Nat
deriving DecidableEq, Repr

/-- Seconds since the epoch; subtraction of two instants in the integers is
Python `datetime` subtraction measured in seconds. -/
def DateTime.epoch (t : DateTime) : Nat := t.day * 86400 + t.sec

/-! ## `src/attendance.py` — JSON-file `AttendanceTracker` -/

/-- One stored record `{'type': punch_type, 'time': time}`; the time is the
second-of-day whose `fmtTime` rendering is the stored `'%H:%M:%S'` string. -/
structure JEvent where
  type : PunchType
  time : Nat
deriving DecidableEq, Repr

/-- `self.records`: dict name → dict date → list of records. -/
abbrev JRecords : Type := List (String × List (Nat × List JEvent))

/-- The day's record list for a user, `self.records[name][date]`
(empty when either key is absent). -/
def userBucket (records : JRecords) (name : String) (d : Nat) : List JEvent :=
  (alookup ((alookup records name).getD []) d).getD []

/-- `AttendanceTracker.punch` of `src/attendance.py`: ensure the name and
date buckets exist, reject when the last record of today has the same type
(no time window in this tracker), otherwise append `{'type', 'time'}`. -/
def jPunch (records : JRecords) (name : String) (pt : PunchType)
    (now : DateTime) : (Bool × String) × JRecords :=
  -- if name not in self.records: self.records[name] = {}
  let r0 := (alookup records name).getD []
  -- if date not in self.records[name]: self.records[name][date] = []
  let r1 := if (alookup r0 now.day).isSome then r0 else aset r0 now.day []
  let bucket := (alookup r1 now.day).getD []
  match bucket.getLast? with
  | some last =>
    if last.type = pt then
      ((false, "Already punched " ++ pt.str ++ " at " ++ fmtTime last.time),
       aset records name r1)
    else
      ((true, "Punched " ++ pt.str ++ " successfully at " ++ fmtTime now.sec),
       aset records name (aset r1 now.day (bucket ++ [⟨pt, now.sec⟩])))
  | none =>
      ((true, "Punched " ++ pt.str ++ " successfully at " ++ fmtTime now.sec),
       aset records name (aset r1 now.day (bucket ++ [⟨pt, now.sec⟩])))

/-- `AttendanceTracker.get_user_history` of `src/attendance.py`: the most
recent `days` dates that are present for the user, newest first, each with
its stored record list. `sorted(keys, reverse=True)` is the descending sort
of the (distinct) date keys. -/
def jHistory (records : JRecords) (name : String) (days : Nat) :
    List (Nat × List JEvent) :=
  match alookup records name with
  | none => []
  | some r =>
    let all_dates := List.insertionSort (fun a b => b ≤ a) (r.map Prod.fst)
    (all_dates.take days).map (fun d => (d, (alookup r d).getD []))

/-! ## `src/database.py` — SQLite `AttendanceTracker` -/

/-- One row of the `attendance` table.  `punch_time` is stored as a
`'%Y-%m-%d %H:%M:%S'` string, modelled by the `DateTime` it denotes;
`date` is the `'%Y-%m-%d'` date column. -/
structure DBEvent where
  user_id : Nat
  punch_type : PunchType
  ptime : DateTime
  date : Nat
deriving DecidableEq, Repr

/-- The database: `users` rows `(id, name)` in rowid order (`name` is
declared UNIQUE), the next AUTOINCREMENT id (SQLite starts at 1), and the
`attendance` rows in rowid (insertion) order. -/
structure DBState where
  users : List (Nat × String)
  nextId : Nat
  attendance : List DBEvent
deriving DecidableEq, Repr

/-- A fresh database after `init_database`. -/
def dbInit : DBState := ⟨[], 1, []⟩

/-- `get_user_id`: `SELECT id FROM users WHERE name = ?` (first match;
names are UNIQUE so at most one row matches). -/
def userIdOf (s : DBState) (name : String) : Option Nat :=
  (s.users.find? (fun u => u.2 == name)).map Prod.fst

/-- The user's rows on one date (the rows
`WHERE user_id = ? AND date = ?`, in rowid order). -/
def eventsOn (s : DBState) (uid : Nat) (d : Nat) : List DBEvent :=
  s.attendance.filter (fun e => decide (e.user_id = uid ∧ e.date = d))

/-- `SELECT ... WHERE user_id = ? AND date = ? ORDER BY punch_time DESC
LIMIT 1`: the row with the greatest `punch_time`.  SQLite leaves the order
of equal keys unspecified; this model lets the later-inserted row win a
tie, one consistent refinement of that freedom. -/
def lastRecordFor (s : DBState) (uid : Nat) (d : Nat) : Option DBEvent :=
  (eventsOn s uid d).foldl
    (fun acc e =>
      match acc with
      | none => some e
      | some b => if b.ptime.epoch ≤ e.ptime.epoch then some e else some b)
    none

/-- Python `(now - last_time).seconds`: the `seconds` field of a
`timedelta` is the total difference in seconds reduced modulo 86400 with a
floor (Euclidean) remainder, for negative differences as well. -/
def pySeconds (a b : DateTime) : Int :=
  ((a.epoch : Int) - (b.epoch : Int)) % 86400

/-- `AttendanceTracker.punch` of `src/database.py`.  The missing-user
branch inlines `add_user` followed by the re-lookup: the INSERT appends
`(nextId, name)` and, the name being absent, the re-lookup finds exactly
that row. -/
def dbPunch (s : DBState) (name : String) (pt : PunchType)
    (now : DateTime) : (Bool × String) × DBState :=
  let us :=
    match userIdOf s name with
    | some uid => (uid, s)
    | none =>
      (s.nextId,
       { s with users := s.users ++ [(s.nextId, name)], nextId := s.nextId + 1 })
  let uid := us.1
  let s1 := us.2
  match lastRecordFor s1 uid now.day with
  | some last =>
    if last.punch_type = pt ∧ pySeconds now last.ptime < 300 then
      ((false, "Already punched " ++ pt.str ++ " at " ++ fmtTime last.ptime.sec),
       s1)
    else
      ((true, "Punched " ++ pt.str ++ " successfully at " ++ fmtTime now.sec),
       { s1 with attendance := s1.attendance ++ [⟨uid, pt, now, now.day⟩] })
  | none =>
      ((true, "Punched " ++ pt.str ++ " successfully at " ++ fmtTime now.sec),
       { s1 with attendance := s1.attendance ++ [⟨uid, pt, now, now.day⟩] })

/-- `ORDER BY date DESC, punch_time DESC` as a relation: `a` precedes `b`. -/
def rowLe (a b : DBEvent) : Prop :=
  b.date < a.date ∨ (b.date = a.date ∧ b.ptime.epoch ≤ a.ptime.epoch)

instance : DecidableRel rowLe := fun a b => by
  unfold rowLe; infer_instance

instance : IsTotal DBEvent rowLe := by
  constructor
  intro a b
  unfold rowLe
  rcases Nat.lt_trichotomy a.date b.date with h | h | h
  · exact Or.inr (Or.inl h)
  · rcases Nat.le_total b.ptime.epoch a.ptime.epoch with h2 | h2
    · exact Or.inl (Or.inr ⟨h.symm, h2⟩)
    · exact Or.inr (Or.inr ⟨h, h2⟩)
  · exact Or.inl (Or.inl h)

instance : IsTrans DBEvent rowLe := by
  constructor
  intro a b c hab hbc
  unfold rowLe at *
  rcases hab with h1 | ⟨h1, h1'⟩
  · rcases hbc with h2 | ⟨h2, _⟩
    · exact Or.inl (Nat.lt_trans h2 h1)
    · exact Or.inl (h2 ▸ h1)
  · rcases hbc with h2 | ⟨h2, h2'⟩
    · exact Or.inl (h1 ▸ h2)
    · exact Or.inr ⟨h2.trans h1, h2'.trans h1'⟩

/-- One iteration of the Python grouping loop of `get_user_history`:
`if date not in history: history[date] = []` then append
`{'type', 'time'}` to that date's list. -/
def groupStep (h : List (Nat × List JEvent)) (e : DBEvent) :
    List (Nat × List JEvent) :=
  aset h e.date (((alookup h e.date).getD []) ++ [⟨e.punch_type, e.ptime.sec⟩])

/-- The Python grouping loop of `get_user_history`: walk the rows in query
order, appending each to its date's list. -/
def groupByDate (rows : List DBEvent) : List (Nat × List JEvent) :=
  rows.foldl groupStep []

/-- `AttendanceTracker.get_user_history` of `src/database.py`: rows of the
user with `date >= (now - timedelta(days=days)).date`, sorted
`ORDER BY date DESC, punch_time DESC`, grouped by date in that order.
(`now.day - days` is their difference as dates; day numbers in scope stay
nonnegative.) -/
def dbHistory (s : DBState) (name : String) (days : Nat) (now : DateTime) :
    List (Nat × List JEvent) :=
  match userIdOf s name with
  | none => []
  | some uid =>
    let start := now.day - days
    let rows := List.insertionSort rowLe
      (s.attendance.filter (fun e => decide (e.user_id = uid ∧ start ≤ e.date)))
    groupByDate rows

/-- A row counted by a `WHERE date BETWEEN ? AND ?` clause. -/
def inRange (st en : Nat) (e : DBEvent) : Bool :=
  decide (st ≤ e.date ∧ e.date ≤ en)

/-- The three aggregates `get_statistics` returns. -/
structure Stats where
  by_type : List (PunchType × Nat)
  by_user : List (String × Nat)
  daily : List (Nat × Nat)
deriving DecidableEq, Repr

/-- The count behind one `by_type` group. -/
def typeCount (s : DBState) (st en : Nat) (pt : PunchType) : Nat :=
  ((s.attendance.filter (inRange st en)).filter
    (fun e => e.punch_type == pt)).length

/-- `AttendanceTracker.get_statistics` of `src/database.py`:
`by_type` groups the in-range rows by punch type (groups with zero rows do
not appear; SQLite's group enumeration order is unspecified, rendered here
in the enumeration order of the type); `by_user` LEFT JOINs every user to
the count of their in-range rows, `ORDER BY punch_count DESC`; `daily`
maps each in-range date with rows to its distinct-user count,
`ORDER BY date DESC`. -/
def get_statistics (s : DBState) (st en : Nat) : Stats :=
  let rows := s.attendance.filter (inRange st en)
  { by_type :=
      ([PunchType.pIn, PunchType.pOut, PunchType.pBreak, PunchType.pLunch].map
        (fun pt => (pt, typeCount s st en pt))).filter (fun p => decide (p.2 ≠ 0))
    by_user :=
      List.insertionSort (fun a b => b.2 ≤ a.2)
        (s.users.map (fun u =>
          (u.2, (rows.filter (fun e => e.user_id == u.1)).length)))
    daily :=
      (List.insertionSort (fun a b => b ≤ a) ((rows.map (fun e => e.date)).dedup)).map
        (fun d =>
          (d, (((rows.filter (fun e => e.date == d)).map (fun e => e.user_id)).dedup).length)) }

/-- `AttendanceTracker.delete_user` of `src/database.py`: both DELETEs run
in one transaction (`get_connection` commits on success and rolls back on
an exception), so the pair of removals is a single atomic state change. -/
def delete_user (s : DBState) (name : String) : (Bool × String) × DBState :=
  match userIdOf s name with
  | none => ((false, "User not found"), s)
  | some uid =>
    ((true, "User " ++ name ++ " and all records deleted"),
     { s with
        users := s.users.filter (fun u => decide (¬ u.1 = uid)),
        attendance := s.attendance.filter (fun e => decide (¬ e.user_id = uid)) })

/-! ## `src/face_system.py` — `FaceSystem`

`Frame` (a camera frame), `Face` (a detected, cropped face region) and
`RecState` (the opaque LBPH recognizer state) are type parameters.
`detect : Frame → Option Face` stands for `detect_face` (preprocess +
cascade + largest-region selection; `none` when no face is found), and
`predict : RecState → Face → Nat × ℚ` for `recognizer.predict` (label and
distance score; the cv2 score is a float, embedded in `ℚ`). -/

section FaceSystem

variable {Frame Face RecState : Type}

/-- The mutable `FaceSystem` fields the claims concern: `self.users`
(dict label → name), `self.trained`, and the recognizer state. -/
structure FaceSys (RecState : Type) where
  users : List (Nat × String)
  trained : Bool
  recognizer : RecState
deriving DecidableEq, Repr

/-- One persisted `{name}.pkl` payload
(`name`, `samples`, `registered_at`). -/
structure UserData (Face : Type) where
  name : String
  samples : List Face
  registered_at : Nat
deriving DecidableEq, Repr

/-- The `data/faces` directory: the enrolled base names in directory
order (a filesystem listing has no guaranteed order; writing a file that
already exists does not add a listing entry) and each file's content. -/
structure FaceDir (Face : Type) where
  listing : List String
  content : String → Option (UserData Face)

/-- Writing `{name}.pkl`: replaces the content; the listing gains the name
only if it was absent. -/
def writeFile (dir : FaceDir Face) (name : String) (ud : UserData Face) :
    FaceDir Face :=
  { listing := if name ∈ dir.listing then dir.listing else dir.listing ++ [name]
    content := fun n => if n = name then some ud else dir.content n }

/-- The `user_files` the training loop reads: every listed file's
unpickled payload, in listing order. -/
def dirFiles (dir : FaceDir Face) : List (UserData Face) :=
  dir.listing.filterMap dir.content

/-- `FaceSystem.get_all_users`: the `.pkl` base names in the listing. -/
def get_all_users (dir : FaceDir Face) : List String :=
  dir.listing

/-- `FaceSystem.train`: clears `self.users`, fails when the data directory
is missing or holds no `.pkl` files, then rebuilds `self.users` with dense
labels in listing (`os.listdir`) order, flattens all samples with their
labels, fails when no samples remain, otherwise fits the recognizer and
sets `self.trained = True`.  Note `self.users` is reassigned before every
precondition check. -/
def train (fs : FaceSys RecState) (dirExists : Bool)
    (userFiles : List (UserData Face))
    (fit : List Face → List Nat → RecState) : Bool × FaceSys RecState :=
  -- faces = [] ; labels = [] ; self.users = {}
  if dirExists = false then
    (false, { fs with users := [] })
  else if userFiles.length = 0 then
    (false, { fs with users := [] })
  else
    -- for idx, user_file in enumerate(user_files): self.users[idx] = name; ...
    let newUsers := userFiles.enum.map (fun p => (p.1, p.2.name))
    let faces := (userFiles.map (fun ud => ud.samples)).flatten
    let labels := (userFiles.enum.map (fun p => p.2.samples.map (fun _ => p.1))).flatten
    if faces.length = 0 then
      (false, { fs with users := newUsers })
    else
      (true, { users := newUsers, trained := true, recognizer := fit faces labels })

/-- `FaceSystem.register_user`: keep the frames in which a face is
detected, fail below 10 samples, otherwise persist the `{name}.pkl` record
and retrain over the whole directory. -/
def register_user (fs : FaceSys RecState) (dir : FaceDir Face)
    (detect : Frame → Option Face) (name : String) (frames : List Frame)
    (now : Nat) (fit : List Face → List Nat → RecState) :
    (Bool × String) × FaceSys RecState × FaceDir Face :=
  let samples := frames.filterMap detect
  if samples.length < 10 then
    ((false, "Only captured " ++ toString samples.length ++
      " samples. Need at least 10."), fs, dir)
  else
    let dir2 := writeFile dir name ⟨name, samples, now⟩
    let tr := train fs true (dirFiles dir2) fit
    if tr.1 then
      ((true, "Registered " ++ name ++ " with " ++ toString samples.length ++
        " samples"), tr.2, dir2)
    else
      ((false, "Training failed"), tr.2, dir2)

/-- `FaceSystem.recognize`: untrained → `(None, 0)`; no face → `(None, 0)`;
otherwise predict, resolve the label through `self.users.get(label,
"Unknown")` below the threshold 70, and report `"Unknown"` with the raw
score at or above it. -/
def recognize (fs : FaceSys RecState) (detect : Frame → Option Face)
    (predict : RecState → Face → Nat × ℚ) (frame : Frame) :
    Option String × ℚ :=
  if fs.trained = false then (none, 0)
  else
    match detect frame with
    | none => (none, 0)
    | some face =>
      let lc := predict fs.recognizer face
      if lc.2 < 70 then (some ((alookup fs.users lc.1).getD "Unknown"), lc.2)
      else (some "Unknown", lc.2)

/-- A sequence of enrollments folded over the system state. -/
def applyRegs (detect : Frame → Option Face)
    (fit : List Face → List Nat → RecState) (now : Nat)
    (ops : List (String × List Frame))
    (st : FaceSys RecState × FaceDir Face) : FaceSys RecState × FaceDir Face :=
  ops.foldl
    (fun st op => (register_user st.1 st.2 detect op.1 op.2 now fit).2)
    st

/-! ### Interleaving model for `train` / `recognize` on the shared object

`train` mutates the shared `FaceSystem` object through a sequence of
individual visible writes (there is no lock anywhere in the file); Python
threads may interleave between any two of them.  `trainWrites` lists those
writes in program order, `stateAfter` is the shared state once a prefix of
them has run, and `recognizeInterleaved` is `recognize` whose three reads
of shared state (`self.trained`, `self.recognizer`, `self.users`) happen
at three, possibly different, points of the writer's progress. -/

/-- The shared-state writes of `train`, in program order:
`self.users = {}`; one `self.users[idx] = name` per enrolled file;
`self.recognizer.train(...)`; `self.trained = True`. -/
def trainWrites (newUsers : List (Nat × String)) (newRec : RecState) :
    List (FaceSys RecState → FaceSys RecState) :=
  [fun m => { m with users := [] }]
    ++ newUsers.map (fun u => fun m => { m with users := m.users ++ [u] })
    ++ [fun m => { m with recognizer := newRec },
        fun m => { m with trained := true }]

/-- The shared state after the first `k` writes have executed. -/
def stateAfter (m0 : FaceSys RecState)
    (ws : List (FaceSys RecState → FaceSys RecState)) (k : Nat) :
    FaceSys RecState :=
  (ws.take k).foldl (fun m f => f m) m0

/-- `recognize` racing `train`: reads `self.trained` after `k1` writes,
the recognizer state after `k2`, and `self.users` after `k3`. -/
def recognizeInterleaved (m0 : FaceSys RecState)
    (ws : List (FaceSys RecState → FaceSys RecState)) (k1 k2 k3 : Nat)
    (detect : Frame → Option Face) (predict : RecState → Face → Nat × ℚ)
    (frame : Frame) : Option String × ℚ :=
  if (stateAfter m0 ws k1).trained = false then (none, 0)
  else
    match detect frame with
    | none => (none, 0)
    | some face =>
      let lc := predict (stateAfter m0 ws k2).recognizer face
      if lc.2 < 70 then
        (some ((alookup (stateAfter m0 ws k3).users lc.1).getD "Unknown"), lc.2)
      else (some "Unknown", lc.2)

end FaceSystem

/-! ## Association-list lemmas -/

theorem alookup_aset_self {κ β : Type} [DecidableEq κ] (l : List (κ × β))
    (k : κ) (v : β) : alookup (aset l k v) k = some v := by
  induction l with
  | nil => simp [aset, alookup]
  | cons p l ih =>
    by_cases h : p.1 = k
    · simp [aset, alookup, h]
    · simp [aset, alookup, h, ih]

theorem alookup_aset_of_ne {κ β : Type} [DecidableEq κ] (l : List (κ × β))
    (k k2 : κ) (v : β) (h : k2 ≠ k) :
    alookup (aset l k v) k2 = alookup l k2 := by
  have hk : ¬ k = k2 := fun he => h he.symm
  induction l with
  | nil => simp [aset, alookup, hk]
  | cons p l ih =>
    by_cases hp : p.1 = k
    · simp [aset, alookup, hp, hk]
    · simp [aset, alookup, hp, ih]

theorem mem_aset_elim {κ β : Type} [DecidableEq κ] {l : List (κ × β)}
    {k : κ} {v : β} {q : κ × β} (h : q ∈ aset l k v) :
    q = (k, v) ∨ q ∈ l := by
  induction l with
  | nil => simpa [aset] using h
  | cons p l ih =>
    by_cases hp : p.1 = k
    · rcases (by simpa [aset, hp] using h) with h | h
      · exact Or.inl h
      · exact Or.inr (List.mem_cons_of_mem _ h)
    · rcases (by simpa [aset, hp] using h) with h | h
      · exact Or.inr (by simp [h])
      · rcases ih h with h | h
        · exact Or.inl h
        · exact Or.inr (List.mem_cons_of_mem _ h)

theorem alookup_eq_some_mem {κ β : Type} [DecidableEq κ] {l : List (κ × β)}
    {k : κ} {v : β} (h : alookup l k = some v) : (k, v) ∈ l := by
  induction l with
  | nil => simp [alookup] at h
  | cons p l ih =>
    by_cases hp : p.1 = k
    · have h1 : p.2 = v := by simpa [alookup, hp] using h
      have h2 : (k, v) = p := by
        calc (k, v) = (p.1, p.2) := by rw [hp, h1]
          _ = p := rfl
      exact List.mem_cons.mpr (Or.inl h2)
    · exact List.mem_cons_of_mem _ (ih (by simpa [alookup, hp] using h))

theorem alookup_eq_none_iff {κ β : Type} [DecidableEq κ] (l : List (κ × β))
    (k : κ) : alookup l k = none ↔ k ∉ l.map Prod.fst := by
  induction l with
  | nil => simp [alookup]
  | cons p l ih =>
    by_cases hp : p.1 = k
    · simp [alookup, hp]
    · have hs : ¬ k = p.1 := fun he => hp he.symm
      simp [alookup, hp, ih, hs]

theorem aset_alookup_self {κ β : Type} [DecidableEq κ] {l : List (κ × β)}
    {k : κ} {v : β} (h : alookup l k = some v) : aset l k v = l := by
  induction l with
  | nil => simp [alookup] at h
  | cons p l ih =>
    by_cases hp : p.1 = k
    · have h1 : p.2 = v := by simpa [alookup, hp] using h
      simp only [aset, if_pos hp]
      rw [← hp, ← h1]
    · simp [aset, hp, ih (by simpa [alookup, hp] using h)]

theorem alookup_of_mem_nodupKeys {κ β : Type} [DecidableEq κ]
    {l : List (κ × β)} {q : κ × β} (hn : (l.map Prod.fst).Nodup)
    (h : q ∈ l) : alookup l q.1 = some q.2 := by
  induction l with
  | nil => simp at h
  | cons p l ih =>
    rcases List.mem_cons.mp h with h | h
    · simp [h, alookup]
    · rw [List.map_cons] at hn
      have hn2 := List.nodup_cons.mp hn
      have hq1 : q.1 ∈ l.map Prod.fst := List.mem_map_of_mem _ h
      have hne : ¬ p.1 = q.1 := fun he => hn2.1 (he ▸ hq1)
      simp [alookup, hne, ih hn2.2 h]

theorem keys_aset {κ β : Type} [DecidableEq κ] (l : List (κ × β)) (k : κ)
    (v : β) :
    (aset l k v).map Prod.fst =
      if k ∈ l.map Prod.fst then l.map Prod.fst else l.map Prod.fst ++ [k] := by
  induction l with
  | nil => simp [aset]
  | cons p l ih =>
    by_cases hp : p.1 = k
    · simp [aset, hp]
    · have hs : ¬ k = p.1 := fun he => hp he.symm
      by_cases hk : k ∈ l.map Prod.fst
      · simp [aset, hp, hk, ih, hs]
      · simp [aset, hp, hk, ih, hs]

/-! ## C5 — recognize on an untrained model or a faceless frame -/

/-- C5: for every frame, `recognize` returns `(None, 0)` whenever the model
is untrained, and `(None, 0)` whenever no face is detected.  `predict` (the
underlying classifier) is universally quantified, so the result is the same
whatever the classifier would answer: it is never consulted. -/
theorem recognize_untrained_or_no_face {Frame Face RecState : Type}
    (fs : FaceSys RecState) (detect : Frame → Option Face)
    (predict : RecState → Face → Nat × ℚ) (frame : Frame)
    (h : fs.trained = false ∨ detect frame = none) :
    recognize fs detect predict frame = (none, 0) := by
  rcases h with h | h
  · simp [recognize, h]
  · by_cases ht : fs.trained = false
    · simp [recognize, ht]
    · simp [recognize, ht, h]

/-- Witness for C5 at a concrete untrained system and a concrete faceless
frame. -/
theorem recognize_untrained_or_no_face_witness :
    ((⟨[], false, (0 : Nat)⟩ : FaceSys Nat).trained = false ∨
        (fun _ : Nat => (none : Option Nat)) 0 = none) ∧
      recognize (⟨[], false, (0 : Nat)⟩ : FaceSys Nat)
        (fun _ : Nat => (none : Option Nat)) (fun _ _ => (0, 0)) 0 = (none, 0) :=
  ⟨Or.inl rfl,
   recognize_untrained_or_no_face _ _ _ _ (Or.inl rfl)⟩

/-! ## C3 — the acceptance threshold 70 of recognize -/

/-- C3: on a trained model and a frame with a detected face, a predicted
score strictly below 70 resolves the predicted label through
`label_to_name` (`self.users`), and a score at or above 70 yields
`"Unknown"` together with the raw score. -/
theorem recognize_threshold {Frame Face RecState : Type}
    (fs : FaceSys RecState) (detect : Frame → Option Face)
    (predict : RecState → Face → Nat × ℚ) (frame : Frame) (face : Face)
    (label : Nat) (conf : ℚ) (nm : String)
    (htr : fs.trained = true) (hdet : detect frame = some face)
    (hpred : predict fs.recognizer face = (label, conf))
    (hmap : alookup fs.users label = some nm) :
    (conf < 70 → recognize fs detect predict frame = (some nm, conf)) ∧
    (70 ≤ conf → recognize fs detect predict frame = (some "Unknown", conf)) := by
  constructor
  · intro hc
    simp [recognize, htr, hdet, hpred, hmap, hc]
  · intro hc
    simp [recognize, htr, hdet, hpred, hmap, not_lt.mpr hc]

/-- Witness for C3: both sides of the boundary at a concrete trained model
(scores 50 and 80). -/
theorem recognize_threshold_witness :
    recognize (⟨[(0, "alice")], true, (0 : Nat)⟩ : FaceSys Nat)
        (fun _ : Nat => some (0 : Nat)) (fun _ _ => (0, (50 : ℚ))) 0 =
      (some "alice", 50) ∧
    recognize (⟨[(0, "alice")], true, (0 : Nat)⟩ : FaceSys Nat)
        (fun _ : Nat => some (0 : Nat)) (fun _ _ => (0, (80 : ℚ))) 0 =
      (some "Unknown", 80) :=
  ⟨(recognize_threshold (⟨[(0, "alice")], true, (0 : Nat)⟩ : FaceSys Nat)
      (fun _ : Nat => some (0 : Nat)) (fun _ _ => (0, (50 : ℚ))) 0 0 0 50 "alice"
      rfl rfl rfl (by decide)).1 (by norm_num),
   (recognize_threshold (⟨[(0, "alice")], true, (0 : Nat)⟩ : FaceSys Nat)
      (fun _ : Nat => some (0 : Nat)) (fun _ _ => (0, (80 : ℚ))) 0 0 0 80 "alice"
      rfl rfl rfl (by decide)).2 (by norm_num)⟩

/-! ## C4 — enrollment with fewer than 10 valid face frames -/

/-- C4: when fewer than 10 of the input frames contain a detectable face,
`register_user` fails with the insufficient-samples message and returns the
system state and the face directory unchanged: no `Identity` record is
persisted. -/
theorem register_user_insufficient {Frame Face RecState : Type}
    (fs : FaceSys RecState) (dir : FaceDir Face) (detect : Frame → Option Face)
    (name : String) (frames : List Frame) (now : Nat)
    (fit : List Face → List Nat → RecState)
    (h : (frames.filterMap detect).length < 10) :
    register_user fs dir detect name frames now fit =
      ((false, "Only captured " ++ toString (frames.filterMap detect).length ++
        " samples. Need at least 10."), fs, dir) := by
  simp [register_user, h]

/-- Witness for C4 at a concrete enrollment with zero valid frames. -/
theorem register_user_insufficient_witness :
    (([] : List Nat).filterMap (fun _ => (none : Option Nat))).length < 10 ∧
    register_user (⟨[], false, (0 : Nat)⟩ : FaceSys Nat)
        ⟨[], fun _ => none⟩ (fun _ => (none : Option Nat)) "alice"
        ([] : List Nat) 0 (fun _ _ => 0) =
      ((false, "Only captured " ++
        toString (([] : List Nat).filterMap (fun _ => (none : Option Nat))).length ++
        " samples. Need at least 10."),
       ⟨[], false, 0⟩, ⟨[], fun _ => none⟩) :=
  ⟨by decide,
   register_user_insufficient _ _ _ "alice" _ 0 _ (by decide)⟩

/-! ## C2 — a failed retrain wipes the previously trained label map -/

/-- C2 (refuted): the claim says a `train()` whose precondition fails
leaves a previously trained model — label map and classifier — unchanged.
In the code `self.users = {}` runs before every precondition check, so
with a trained model (here `users = {0: "alice"}`, classifier state `7`)
and an empty enrolled set, `train` returns failure with the label map
cleared to `{}` while `self.trained` stays `True` and the classifier state
is untouched: the pair is torn, contradicting the claim (and §7 of the
spec, which states the intent explicitly). -/
theorem train_precondition_failure_wipes_label_map :
    (train (⟨[(0, "alice")], true, 7⟩ : FaceSys Nat) true
        ([] : List (UserData Nat)) (fun _ _ => 0)).1 = false ∧
    (train (⟨[(0, "alice")], true, 7⟩ : FaceSys Nat) true
        ([] : List (UserData Nat)) (fun _ _ => 0)).2.users = [] ∧
    (train (⟨[(0, "alice")], true, 7⟩ : FaceSys Nat) true
        ([] : List (UserData Nat)) (fun _ _ => 0)).2.trained = true ∧
    (train (⟨[(0, "alice")], true, 7⟩ : FaceSys Nat) true
        ([] : List (UserData Nat)) (fun _ _ => 0)).2.recognizer = 7 ∧
    ([] : List (Nat × String)) ≠ [(0, "alice")] := by
  decide

/-! ## C6 — label order depends on the directory listing order -/

/-- C6 (refuted): `train` assigns labels in `os.listdir` order, which is
not sorted and not guaranteed stable.  The same enrolled set
`{alice, bob}` listed in its two possible directory orders yields two
different `label_to_name` maps. -/
theorem train_label_map_depends_on_listing_order :
    (train (⟨[], false, (0 : Nat)⟩ : FaceSys Nat) true
        [(⟨"alice", [1], 0⟩ : UserData Nat), ⟨"bob", [2], 0⟩]
        (fun _ _ => 0)).2.users = [(0, "alice"), (1, "bob")] ∧
    (train (⟨[], false, (0 : Nat)⟩ : FaceSys Nat) true
        [(⟨"bob", [2], 0⟩ : UserData Nat), ⟨"alice", [1], 0⟩]
        (fun _ _ => 0)).2.users = [(0, "bob"), (1, "alice")] ∧
    [((0 : Nat), "alice"), (1, "bob")] ≠ [(0, "bob"), (1, "alice")] := by
  decide

/-- C6 (amended): the `label_to_name` map `train` builds is a function of
the directory listing order alone — labels are the dense enumeration
indexes of the listing, independent of the prior model state and of the
classifier — so the map is reproducible given the same listing order (but
not, as the refuted claim had it, given only the same enrolled set). -/
theorem train_label_map_determined_by_listing {Face R1 R2 : Type}
    (fs1 : FaceSys R1) (fs2 : FaceSys R2)
    (userFiles : List (UserData Face))
    (fit1 : List Face → List Nat → R1) (fit2 : List Face → List Nat → R2)
    (h : userFiles.length ≠ 0) :
    (train fs1 true userFiles fit1).2.users =
      userFiles.enum.map (fun p => (p.1, p.2.name)) ∧
    (train fs1 true userFiles fit1).2.users =
      (train fs2 true userFiles fit2).2.users ∧
    ((train fs1 true userFiles fit1).2.users.map Prod.snd) =
      userFiles.map UserData.name := by
  have huf : ∀ {R : Type} (fs : FaceSys R) (fit : List Face → List Nat → R),
      (train fs true userFiles fit).2.users =
        userFiles.enum.map (fun p => (p.1, p.2.name)) := by
    intro R fs fit
    simp only [train]
    rw [if_neg (by simp), if_neg h]
    split <;> rfl
  refine ⟨huf fs1 fit1, (huf fs1 fit1).trans (huf fs2 fit2).symm, ?_⟩
  rw [huf fs1 fit1, List.map_map]
  have hcomp : (Prod.snd ∘ fun p : Nat × UserData Face => (p.1, p.2.name)) =
      (UserData.name ∘ Prod.snd) := rfl
  rw [hcomp, ← List.map_map, List.enum_map_snd]

/-- Witness for C6's amended theorem at a concrete one-element listing. -/
theorem train_label_map_determined_by_listing_witness :
    ([(⟨"alice", [1], 0⟩ : UserData Nat)].length ≠ 0) ∧
    ((train (⟨[], false, (0 : Nat)⟩ : FaceSys Nat) true
        [(⟨"alice", [1], 0⟩ : UserData Nat)] (fun _ _ => 0)).2.users =
      [(⟨"alice", [1], 0⟩ : UserData Nat)].enum.map (fun p => (p.1, p.2.name))) :=
  ⟨by decide,
   (train_label_map_determined_by_listing (⟨[], false, (0 : Nat)⟩ : FaceSys Nat)
      (⟨[], false, (0 : Nat)⟩ : FaceSys Nat) _ (fun _ _ => 0) (fun _ _ => 0)
      (by decide)).1⟩

/-! ## C9 — a recognize racing a train can observe a torn model -/

/-- Sanity of the interleaving model: a reader whose three reads all
happen at the same point of the writer's progress behaves exactly like the
sequential `recognize` on the state at that point. -/
theorem recognizeInterleaved_atomic {Frame Face RecState : Type}
    (m0 : FaceSys RecState) (ws : List (FaceSys RecState → FaceSys RecState))
    (k : Nat) (detect : Frame → Option Face)
    (predict : RecState → Face → Nat × ℚ) (frame : Frame) :
    recognizeInterleaved m0 ws k k k detect predict frame =
      recognize (stateAfter m0 ws k) detect predict frame := by
  by_cases ht : (stateAfter m0 ws k).trained = false
  · simp [recognizeInterleaved, recognize, ht]
  · cases hd : detect frame with
    | none => simp [recognizeInterleaved, recognize, ht, hd]
    | some face => simp [recognizeInterleaved, recognize, ht, hd]

/-- Sanity of the interleaving model: running every write of `trainWrites`
yields exactly the state a successful `train` installs — the new label
map, the new recognizer state, `trained = True`. -/
theorem stateAfter_trainWrites_all {RecState : Type} (m0 : FaceSys RecState)
    (nu : List (Nat × String)) (nr : RecState) :
    stateAfter m0 (trainWrites nu nr) (trainWrites nu nr).length =
      ⟨nu, true, nr⟩ := by
  have hmid : ∀ (l : List (Nat × String)) (acc : List (Nat × String))
      (t : Bool) (r : RecState),
      (l.map (fun u => fun m : FaceSys RecState => { m with users := m.users ++ [u] })).foldl
        (fun m f => f m) ⟨acc, t, r⟩ = ⟨acc ++ l, t, r⟩ := by
    intro l
    induction l with
    | nil => intro acc t r; simp
    | cons u l ih =>
      intro acc t r
      simp only [List.map_cons, List.foldl_cons, ih]
      simp
  unfold stateAfter trainWrites
  rw [List.take_length]
  simp only [List.foldl_append, List.foldl_cons, List.foldl_nil]
  rw [show ({ m0 with users := [] } : FaceSys RecState) = ⟨[], m0.trained, m0.recognizer⟩ from rfl,
      hmid]
  simp

/-- C9 (refuted; the code has no lock): `train` updates the shared model
through several visible writes (`trainWrites`, in program order), so a
`recognize` running concurrently can read the `trained` flag and the
classifier before the classifier swap but the label map after its rebuild.
Concretely: the old model knows only `alice` (map `{0: "alice"}`,
classifier state `10`), the new one `alice` and `bob` (classifier `20`).
The reader's snapshot pairs the old classifier with the new map — equal to
neither the fully-old nor the fully-new pair — and `recognize` answers
`"bob"` at score 50, an answer neither the fully-old model (which answers
`"Unknown"`) nor the fully-new model (which answers `"alice"`) can give. -/
theorem recognize_train_race_partial_state :
    ((stateAfter (⟨[(0, "alice")], true, 10⟩ : FaceSys Nat)
        (trainWrites [(0, "alice"), (1, "bob")] 20) 0).recognizer,
     (stateAfter (⟨[(0, "alice")], true, 10⟩ : FaceSys Nat)
        (trainWrites [(0, "alice"), (1, "bob")] 20) 3).users) ≠
      (10, [(0, "alice")]) ∧
    ((stateAfter (⟨[(0, "alice")], true, 10⟩ : FaceSys Nat)
        (trainWrites [(0, "alice"), (1, "bob")] 20) 0).recognizer,
     (stateAfter (⟨[(0, "alice")], true, 10⟩ : FaceSys Nat)
        (trainWrites [(0, "alice"), (1, "bob")] 20) 3).users) ≠
      (20, [(0, "alice"), (1, "bob")]) ∧
    recognizeInterleaved (⟨[(0, "alice")], true, 10⟩ : FaceSys Nat)
        (trainWrites [(0, "alice"), (1, "bob")] 20) 0 0 3
        (fun _ : Nat => some (0 : Nat))
        (fun st _ => (if st = 10 then 1 else 0, (50 : ℚ))) 0 =
      (some "bob", 50) ∧
    recognize (⟨[(0, "alice")], true, 10⟩ : FaceSys Nat)
        (fun _ : Nat => some (0 : Nat))
        (fun st _ => (if st = 10 then 1 else 0, (50 : ℚ))) 0 =
      (some "Unknown", 50) ∧
    recognize (⟨[(0, "alice"), (1, "bob")], true, 20⟩ : FaceSys Nat)
        (fun _ : Nat => some (0 : Nat))
        (fun st _ => (if st = 10 then 1 else 0, (50 : ℚ))) 0 =
      (some "alice", 50) := by
  decide

/-! ## C10 — re-enrolling an existing name replaces its record -/

/-- The directory listing after a `register_user` either is unchanged or
gains the (previously absent) enrolled name at the end. -/
theorem register_user_listing_cases {Frame Face RecState : Type}
    (fs : FaceSys RecState) (dir : FaceDir Face) (detect : Frame → Option Face)
    (name : String) (frames : List Frame) (now : Nat)
    (fit : List Face → List Nat → RecState) :
    (register_user fs dir detect name frames now fit).2.2.listing = dir.listing ∨
    ((register_user fs dir detect name frames now fit).2.2.listing =
        dir.listing ++ [name] ∧ name ∉ dir.listing) := by
  by_cases h : (frames.filterMap detect).length < 10
  · left; simp [register_user, h]
  · by_cases hm : name ∈ dir.listing
    · left
      simp only [register_user, if_neg h]
      split <;> simp [writeFile, hm]
    · right
      constructor
      · simp only [register_user, if_neg h]
        split <;> simp [writeFile, hm]
      · exact hm

/-- C10: re-enrolling an already-listed name with at least 10 valid frames
succeeds, silently replaces the stored record (new samples and new
enrollment timestamp) without adding a listing entry, and enrollment never
introduces a duplicate name: any sequence of `register_user` calls
preserves the distinctness of `get_all_users`. -/
theorem register_user_replaces_existing {Frame Face RecState : Type}
    (fs : FaceSys RecState) (dir : FaceDir Face) (detect : Frame → Option Face)
    (name : String) (frames : List Frame) (now : Nat)
    (fit : List Face → List Nat → RecState)
    (hmem : name ∈ dir.listing)
    (hge : 10 ≤ (frames.filterMap detect).length) :
    (register_user fs dir detect name frames now fit).1.1 = true ∧
    (register_user fs dir detect name frames now fit).2.2.content name =
      some ⟨name, frames.filterMap detect, now⟩ ∧
    (register_user fs dir detect name frames now fit).2.2.listing =
      dir.listing ∧
    (∀ (ops : List (String × List Frame)) (st : FaceSys RecState × FaceDir Face),
      (get_all_users st.2).Nodup →
      (get_all_users (applyRegs detect fit now ops st).2).Nodup) := by
  have hnlt : ¬ (frames.filterMap detect).length < 10 := not_lt.mpr hge
  have hdir2 : writeFile dir name ⟨name, frames.filterMap detect, now⟩ =
      ⟨dir.listing, fun n => if n = name
        then some ⟨name, frames.filterMap detect, now⟩ else dir.content n⟩ := by
    simp [writeFile, hmem]
  have hud : (⟨name, frames.filterMap detect, now⟩ : UserData Face) ∈
      dirFiles (writeFile dir name ⟨name, frames.filterMap detect, now⟩) := by
    rw [hdir2]
    exact List.mem_filterMap.mpr ⟨name, hmem, by simp⟩
  have htr : (train fs true
      (dirFiles (writeFile dir name ⟨name, frames.filterMap detect, now⟩))
      fit).1 = true := by
    simp only [train]
    rw [if_neg (by simp), if_neg, if_neg]
    · -- samples of the freshly written record are among the flattened faces
      intro hlen
      have hs : (frames.filterMap detect) ≠ [] := by
        intro he
        rw [he] at hge
        simp at hge
      rcases List.exists_mem_of_ne_nil _ hs with ⟨x, hx⟩
      have : x ∈ ((dirFiles (writeFile dir name
          ⟨name, frames.filterMap detect, now⟩)).map
            (fun ud => ud.samples)).flatten :=
        List.mem_flatten.mpr ⟨frames.filterMap detect,
          List.mem_map_of_mem _ hud, hx⟩
      rw [List.length_eq_zero] at hlen
      rw [hlen] at this
      simp at this
    · intro hlen
      rw [List.length_eq_zero] at hlen
      rw [hlen] at hud
      simp at hud
  refine ⟨?_, ?_, ?_, ?_⟩
  · simp only [register_user, if_neg hnlt]
    rw [if_pos htr]
  · simp only [register_user, if_neg hnlt]
    split <;> simp [writeFile]
  · simp only [register_user, if_neg hnlt]
    split <;> (rw [hdir2])
  · intro ops
    induction ops with
    | nil => intro st h; simpa [applyRegs] using h
    | cons op ops ih =>
      intro st h
      have hstep : (get_all_users
          (register_user st.1 st.2 detect op.1 op.2 now fit).2.2).Nodup := by
        rcases register_user_listing_cases st.1 st.2 detect op.1 op.2 now fit with
          hc | ⟨hc, hnm⟩
        · rw [get_all_users, hc]; exact h
        · rw [get_all_users, hc]
          refine List.Nodup.append h (List.nodup_singleton _) ?_
          intro a ha hb
          rw [List.mem_singleton] at hb
          exact hnm (hb ▸ ha)
      have : applyRegs detect fit now (op :: ops) st =
          applyRegs detect fit now ops
            (register_user st.1 st.2 detect op.1 op.2 now fit).2 := rfl
      rw [this]
      exact ih _ hstep

/-- Witness for C10: re-enrolling `alice`, already listed with one old
sample, using 10 fresh frames. -/
theorem register_user_replaces_existing_witness :
    ("alice" ∈ (["alice"] : List String) ∧
      10 ≤ (([0, 1, 2, 3, 4, 5, 6, 7, 8, 9] : List Nat).filterMap
        (fun n => some n)).length) ∧
    (register_user (⟨[(0, "alice")], true, (0 : Nat)⟩ : FaceSys Nat)
        ⟨["alice"], fun n => if n = "alice" then some ⟨"alice", [99], 0⟩ else none⟩
        (fun n => some n) "alice" [0, 1, 2, 3, 4, 5, 6, 7, 8, 9] 5
        (fun _ _ => 0)).1.1 = true ∧
    (register_user (⟨[(0, "alice")], true, (0 : Nat)⟩ : FaceSys Nat)
        ⟨["alice"], fun n => if n = "alice" then some ⟨"alice", [99], 0⟩ else none⟩
        (fun n => some n) "alice" [0, 1, 2, 3, 4, 5, 6, 7, 8, 9] 5
        (fun _ _ => 0)).2.2.content "alice" =
      some ⟨"alice", ([0, 1, 2, 3, 4, 5, 6, 7, 8, 9] : List Nat).filterMap
        (fun n => some n), 5⟩ :=
  ⟨⟨by decide, by decide⟩,
   (register_user_replaces_existing (⟨[(0, "alice")], true, (0 : Nat)⟩ : FaceSys Nat)
      ⟨["alice"], fun n => if n = "alice" then some ⟨"alice", [99], 0⟩ else none⟩
      (fun n => some n) "alice" [0, 1, 2, 3, 4, 5, 6, 7, 8, 9] 5 (fun _ _ => 0)
      (by decide) (by decide)).1,
   (register_user_replaces_existing (⟨[(0, "alice")], true, (0 : Nat)⟩ : FaceSys Nat)
      ⟨["alice"], fun n => if n = "alice" then some ⟨"alice", [99], 0⟩ else none⟩
      (fun n => some n) "alice" [0, 1, 2, 3, 4, 5, 6, 7, 8, 9] 5 (fun _ _ => 0)
      (by decide) (by decide)).2.1⟩

/-! ## Behaviour of `jPunch` (src/attendance.py) -/

theorem aset_of_alookup_none {κ β : Type} [DecidableEq κ] {l : List (κ × β)}
    {k : κ} (v : β) (h : alookup l k = none) : aset l k v = l ++ [(k, v)] := by
  induction l with
  | nil => simp [aset]
  | cons p l ih =>
    by_cases hp : p.1 = k
    · simp [alookup, hp] at h
    · simp [aset, hp, ih (by simpa [alookup, hp] using h)]

theorem aset_append_of_alookup_none {κ β : Type} [DecidableEq κ]
    {l : List (κ × β)} {k : κ} (w v : β) (h : alookup l k = none) :
    aset (l ++ [(k, w)]) k v = l ++ [(k, v)] := by
  induction l with
  | nil => simp [aset]
  | cons p l ih =>
    by_cases hp : p.1 = k
    · simp [alookup, hp] at h
    · simp [aset, hp, ih (by simpa [alookup, hp] using h)]

/-- A same-type punch while the date's bucket ends in that type is
rejected with the prior record's time in the message, and the records are
returned unchanged: no event is written (regardless of elapsed time — this
tracker has no time window). -/
theorem jPunch_reject (records : JRecords) (name : String) (pt : PunchType)
    (now : DateTime) (last : JEvent)
    (hlast : (userBucket records name now.day).getLast? = some last)
    (htype : last.type = pt) :
    jPunch records name pt now =
      ((false, "Already punched " ++ pt.str ++ " at " ++ fmtTime last.time),
       records) := by
  rcases halr : alookup ((alookup records name).getD []) now.day with _ | b
  · rw [userBucket, halr] at hlast
    simp at hlast
  · have hbl : b.getLast? = some last := by
      rw [userBucket, halr] at hlast
      simpa using hlast
    rcases han : alookup records name with _ | r
    · rw [han] at halr
      simp [alookup] at halr
    · have hr0 : (alookup records name).getD [] = r := by rw [han]; rfl
      rw [hr0] at halr
      simp only [jPunch, hr0, halr, Option.isSome_some, if_true, Option.getD_some,
        hbl, htype, if_pos rfl]
      rw [aset_alookup_self han]

/-- A punch that is not a same-type repeat of the date's last record is
accepted and appended at the end of that date's bucket; every other
bucket, for this and for all other users, is unchanged. -/
theorem jPunch_accept (records : JRecords) (name : String) (pt : PunchType)
    (now : DateTime)
    (h : ∀ last, (userBucket records name now.day).getLast? = some last →
      last.type ≠ pt) :
    (jPunch records name pt now).1 =
      (true, "Punched " ++ pt.str ++ " successfully at " ++ fmtTime now.sec) ∧
    userBucket (jPunch records name pt now).2 name now.day =
      userBucket records name now.day ++ [⟨pt, now.sec⟩] ∧
    (∀ nm, nm ≠ name →
      ∀ d, userBucket (jPunch records name pt now).2 nm d =
        userBucket records nm d) ∧
    (∀ d, d ≠ now.day →
      userBucket (jPunch records name pt now).2 name d =
        userBucket records name d) := by
  rcases halr : alookup ((alookup records name).getD []) now.day with _ | b
  · -- the date bucket does not exist yet: it is created empty, then appended to
    have hres : jPunch records name pt now =
        ((true, "Punched " ++ pt.str ++ " successfully at " ++ fmtTime now.sec),
         aset records name
           (aset (aset ((alookup records name).getD []) now.day []) now.day
             ([] ++ [⟨pt, now.sec⟩]))) := by
      have hb : alookup (aset ((alookup records name).getD []) now.day
          ([] : List JEvent)) now.day = some [] :=
        alookup_aset_self _ _ _
      simp only [jPunch, halr, Option.isSome_none, Bool.false_eq_true, if_false,
        hb, Option.getD_some, List.getLast?_nil]
    refine ⟨by rw [hres], ?_, ?_, ?_⟩
    · simp only [hres, userBucket, alookup_aset_self, Option.getD_some, halr,
        Option.getD_none]
    · intro nm hnm d
      simp only [hres, userBucket]
      rw [alookup_aset_of_ne _ _ _ _ hnm]
    · intro d hd
      simp only [hres, userBucket, alookup_aset_self, Option.getD_some]
      rw [alookup_aset_of_ne _ _ _ _ hd, alookup_aset_of_ne _ _ _ _ hd]
  · -- the date bucket exists; its last record (if any) has a different type
    have hub : userBucket records name now.day = b := by
      rw [userBucket, halr]; rfl
    have hres : jPunch records name pt now =
        ((true, "Punched " ++ pt.str ++ " successfully at " ++ fmtTime now.sec),
         aset records name
           (aset ((alookup records name).getD []) now.day
             (b ++ [⟨pt, now.sec⟩]))) := by
      rcases hbl : b.getLast? with _ | last
      · simp only [jPunch, halr, Option.isSome_some, if_true, Option.getD_some, hbl]
      · have hne : ¬ last.type = pt := h last (by rw [hub]; exact hbl)
        simp only [jPunch, halr, Option.isSome_some, if_true, Option.getD_some,
          hbl, if_neg hne]
    refine ⟨by rw [hres], ?_, ?_, ?_⟩
    · simp only [hres, userBucket, alookup_aset_self, Option.getD_some, halr]
    · intro nm hnm d
      simp only [hres, userBucket]
      rw [alookup_aset_of_ne _ _ _ _ hnm]
    · intro d hd
      simp only [hres, userBucket, alookup_aset_self, Option.getD_some]
      rw [alookup_aset_of_ne _ _ _ _ hd]

/-! ## Behaviour of `dbPunch` (src/database.py) -/

theorem userIdOf_set_attendance (s : DBState) (name : String)
    (att : List DBEvent) :
    userIdOf { s with attendance := att } name = userIdOf s name := rfl

theorem eventsOn_append (s : DBState) (uid d : Nat) (l : List DBEvent) :
    eventsOn { s with attendance := s.attendance ++ l } uid d =
      eventsOn s uid d ++
        l.filter (fun e => decide (e.user_id = uid ∧ e.date = d)) := by
  simp [eventsOn, List.filter_append]

/-- A punch by a known user with no event yet on the current date is
accepted and appended. -/
theorem dbPunch_fresh (s : DBState) (uid : Nat) (name : String)
    (pt : PunchType) (now : DateTime)
    (huid : userIdOf s name = some uid)
    (hempty : eventsOn s uid now.day = []) :
    dbPunch s name pt now =
      ((true, "Punched " ++ pt.str ++ " successfully at " ++ fmtTime now.sec),
       { s with attendance := s.attendance ++ [⟨uid, pt, now, now.day⟩] }) := by
  simp only [dbPunch, huid, lastRecordFor, hempty, List.foldl_nil]

/-- A punch by a known user whose latest record on the current date is
known reduces to the dedup test against that record. -/
theorem dbPunch_last (s : DBState) (uid : Nat) (name : String)
    (pt : PunchType) (now : DateTime) (last : DBEvent)
    (huid : userIdOf s name = some uid)
    (hlast : lastRecordFor s uid now.day = some last) :
    dbPunch s name pt now =
      if last.punch_type = pt ∧ pySeconds now last.ptime < 300 then
        ((false, "Already punched " ++ pt.str ++ " at " ++ fmtTime last.ptime.sec),
         s)
      else
        ((true, "Punched " ++ pt.str ++ " successfully at " ++ fmtTime now.sec),
         { s with attendance := s.attendance ++ [⟨uid, pt, now, now.day⟩] }) := by
  simp only [dbPunch, huid, hlast]

/-! ## C1 — punch deduplication -/

/-- C1 (refuted as stated): (a) in the JSON tracker (`src/attendance.py`)
there is no 5-minute window — a second same-type punch 10 minutes later on
the same date is rejected and only one event is stored, where the claim
requires two; (b) in the SQLite tracker (`src/database.py`) the dedup
check only consults the current date's bucket — two same-type punches 2
minutes apart that straddle midnight (23:59:00 and 00:01:00) are both
stored, where the claim requires exactly one. -/
theorem punch_dedup_counterexample :
    ((jPunch (jPunch [] "alice" PunchType.pIn ⟨0, 32400⟩).2 "alice"
        PunchType.pIn ⟨0, 33000⟩).1.1 = false ∧
      (userBucket (jPunch (jPunch [] "alice" PunchType.pIn ⟨0, 32400⟩).2
        "alice" PunchType.pIn ⟨0, 33000⟩).2 "alice" 0).length = 1 ∧
      (33000 - 32400 : Nat) = 600 ∧ 300 < (600 : Nat)) ∧
    ((dbPunch (dbPunch dbInit "alice" PunchType.pIn ⟨0, 86340⟩).2 "alice"
        PunchType.pIn ⟨1, 60⟩).1.1 = true ∧
      ((dbPunch (dbPunch dbInit "alice" PunchType.pIn ⟨0, 86340⟩).2 "alice"
        PunchType.pIn ⟨1, 60⟩).2).attendance.length = 2 ∧
      DateTime.epoch ⟨1, 60⟩ - DateTime.epoch ⟨0, 86340⟩ = 120 ∧
      (120 : Nat) < 300) := by
  decide

/-- C1 (amended): in the SQLite tracker, for two punches of the same type
by the same user on the same calendar date (the date having no earlier
event): the first is stored; a second less than 5 minutes (300 s) later is
rejected with a message that contains the prior punch's time and writes
nothing; a second at least 5 minutes later is stored, giving two events.
In the JSON tracker a consecutive same-type punch on the same date is
always rejected (there is no time window) and leaves the records
unchanged, while a punch that is not a same-type repeat is appended. -/
theorem punch_dedup_spec (s : DBState) (name : String) (uid : Nat)
    (pt : PunchType) (d t1 t2 : Nat)
    (huid : userIdOf s name = some uid)
    (hempty : eventsOn s uid d = [])
    (h12 : t1 ≤ t2) (ht2 : t2 < 86400) :
    (dbPunch s name pt ⟨d, t1⟩).1.1 = true ∧
    eventsOn (dbPunch s name pt ⟨d, t1⟩).2 uid d = [⟨uid, pt, ⟨d, t1⟩, d⟩] ∧
    (t2 - t1 < 300 →
      dbPunch (dbPunch s name pt ⟨d, t1⟩).2 name pt ⟨d, t2⟩ =
        ((false, "Already punched " ++ pt.str ++ " at " ++ fmtTime t1),
         (dbPunch s name pt ⟨d, t1⟩).2) ∧
      (∃ pre suf, "Already punched " ++ pt.str ++ " at " ++ fmtTime t1 =
        pre ++ fmtTime t1 ++ suf)) ∧
    (300 ≤ t2 - t1 →
      (dbPunch (dbPunch s name pt ⟨d, t1⟩).2 name pt ⟨d, t2⟩).1.1 = true ∧
      eventsOn (dbPunch (dbPunch s name pt ⟨d, t1⟩).2 name pt ⟨d, t2⟩).2 uid d =
        [⟨uid, pt, ⟨d, t1⟩, d⟩, ⟨uid, pt, ⟨d, t2⟩, d⟩]) ∧
    (∀ (records : JRecords) (nm : String) (pt2 : PunchType) (now : DateTime)
      (last : JEvent),
      (userBucket records nm now.day).getLast? = some last → last.type = pt2 →
      jPunch records nm pt2 now =
        ((false, "Already punched " ++ pt2.str ++ " at " ++ fmtTime last.time),
         records)) ∧
    (∀ (records : JRecords) (nm : String) (pt2 : PunchType) (now : DateTime),
      (∀ last, (userBucket records nm now.day).getLast? = some last →
        last.type ≠ pt2) →
      (jPunch records nm pt2 now).1.1 = true ∧
      userBucket (jPunch records nm pt2 now).2 nm now.day =
        userBucket records nm now.day ++ [⟨pt2, now.sec⟩]) := by
  have h1 := dbPunch_fresh s uid name pt ⟨d, t1⟩ huid hempty
  have hev1 : eventsOn (dbPunch s name pt ⟨d, t1⟩).2 uid d =
      [⟨uid, pt, ⟨d, t1⟩, d⟩] := by
    rw [h1]
    show eventsOn { s with attendance := s.attendance ++ _ } uid d = _
    rw [eventsOn_append, hempty]
    simp
  have huid2 : userIdOf (dbPunch s name pt ⟨d, t1⟩).2 name = some uid := by
    rw [h1]
    exact huid
  have hlast2 : lastRecordFor (dbPunch s name pt ⟨d, t1⟩).2 uid d =
      some ⟨uid, pt, ⟨d, t1⟩, d⟩ := by
    rw [lastRecordFor, hev1]
    rfl
  have hsecs : pySeconds ⟨d, t2⟩ ⟨d, t1⟩ = (t2 : Int) - (t1 : Int) := by
    simp only [pySeconds, DateTime.epoch]
    push_cast
    omega
  refine ⟨by rw [h1], hev1, ?_, ?_, ?_, ?_⟩
  · intro hlt
    have hcond : (⟨uid, pt, ⟨d, t1⟩, d⟩ : DBEvent).punch_type = pt ∧
        pySeconds ⟨d, t2⟩ (⟨uid, pt, ⟨d, t1⟩, d⟩ : DBEvent).ptime < 300 := by
      refine ⟨rfl, ?_⟩
      show pySeconds ⟨d, t2⟩ ⟨d, t1⟩ < 300
      rw [hsecs]
      omega
    have h2 := dbPunch_last (dbPunch s name pt ⟨d, t1⟩).2 uid name pt ⟨d, t2⟩
      ⟨uid, pt, ⟨d, t1⟩, d⟩ huid2 hlast2
    rw [if_pos hcond] at h2
    exact ⟨h2, ⟨"Already punched " ++ pt.str ++ " at ", "", by simp⟩⟩
  · intro hge
    have hncond : ¬ ((⟨uid, pt, ⟨d, t1⟩, d⟩ : DBEvent).punch_type = pt ∧
        pySeconds ⟨d, t2⟩ (⟨uid, pt, ⟨d, t1⟩, d⟩ : DBEvent).ptime < 300) := by
      rintro ⟨-, hc⟩
      have hc2 : pySeconds ⟨d, t2⟩ ⟨d, t1⟩ < 300 := hc
      rw [hsecs] at hc2
      omega
    have h2 := dbPunch_last (dbPunch s name pt ⟨d, t1⟩).2 uid name pt ⟨d, t2⟩
      ⟨uid, pt, ⟨d, t1⟩, d⟩ huid2 hlast2
    rw [if_neg hncond] at h2
    refine ⟨by rw [h2], ?_⟩
    rw [h2, eventsOn_append, hev1]
    simp
  · intro records nm pt2 now last hlast htype
    exact jPunch_reject records nm pt2 now last hlast htype
  · intro records nm pt2 now h
    exact ⟨by rw [(jPunch_accept records nm pt2 now h).1],
      (jPunch_accept records nm pt2 now h).2.1⟩

/-- Witness for C1's amended theorem: user `alice` (id 1) punches `in` at
second 0 of a date; a repeat 200 s later is rejected, a repeat 400 s later
is stored. -/
theorem punch_dedup_spec_witness :
    (userIdOf ⟨[(1, "alice")], 2, []⟩ "alice" = some 1 ∧
      eventsOn ⟨[(1, "alice")], 2, []⟩ 1 0 = [] ∧
      (0 : Nat) ≤ 200 ∧ (200 : Nat) < 86400) ∧
    (dbPunch ⟨[(1, "alice")], 2, []⟩ "alice" PunchType.pIn ⟨0, 0⟩).1.1 = true ∧
    (200 - 0 < 300 →
      dbPunch (dbPunch ⟨[(1, "alice")], 2, []⟩ "alice" PunchType.pIn ⟨0, 0⟩).2
          "alice" PunchType.pIn ⟨0, 200⟩ =
        ((false, "Already punched " ++ PunchType.pIn.str ++ " at " ++ fmtTime 0),
         (dbPunch ⟨[(1, "alice")], 2, []⟩ "alice" PunchType.pIn ⟨0, 0⟩).2) ∧
      (∃ pre suf, "Already punched " ++ PunchType.pIn.str ++ " at " ++ fmtTime 0 =
        pre ++ fmtTime 0 ++ suf)) :=
  ⟨⟨by decide, by decide, by decide, by decide⟩,
   (punch_dedup_spec ⟨[(1, "alice")], 2, []⟩ "alice" 1 PunchType.pIn 0 0 200
      (by decide) (by decide) (by decide) (by decide)).1,
   (punch_dedup_spec ⟨[(1, "alice")], 2, []⟩ "alice" 1 PunchType.pIn 0 0 200
      (by decide) (by decide) (by decide) (by decide)).2.2.1⟩

/-! ## C8 — delete_user cascades and the result excludes the user -/

/-- C8: `delete_user` of an unknown name fails with `User not found` and
changes nothing; `delete_user` of an enrolled user removes the user row
and every attendance row of that user in one atomic state change (the two
DELETEs commit or roll back together), after which `get_user_history`
returns empty for that name and `get_statistics` over any range excludes
the user's punches: the user is no `by_user` key, and every `by_type`
count equals the count over the original rows with that user's rows
removed. -/
theorem delete_user_cascade (s : DBState) (name : String) (days st en : Nat)
    (now : DateTime) :
    (userIdOf s name = none →
      delete_user s name = ((false, "User not found"), s)) ∧
    (∀ uid, userIdOf s name = some uid →
      (∀ u ∈ s.users, u.2 = name → u.1 = uid) →
      (delete_user s name).1 =
        (true, "User " ++ name ++ " and all records deleted") ∧
      (∀ u ∈ (delete_user s name).2.users, u.2 ≠ name) ∧
      (∀ e ∈ (delete_user s name).2.attendance, e.user_id ≠ uid) ∧
      dbHistory (delete_user s name).2 name days now = [] ∧
      name ∉ ((get_statistics (delete_user s name).2 st en).by_user.map Prod.fst) ∧
      (∀ pt, typeCount (delete_user s name).2 st en pt =
        ((s.attendance.filter (fun e => inRange st en e &&
          decide (¬ e.user_id = uid))).filter
            (fun e => e.punch_type == pt)).length)) := by
  constructor
  · intro h
    simp [delete_user, h]
  · intro uid huid huniq
    have hdel : delete_user s name =
        ((true, "User " ++ name ++ " and all records deleted"),
         { s with
            users := s.users.filter (fun u => decide (¬ u.1 = uid)),
            attendance := s.attendance.filter (fun e => decide (¬ e.user_id = uid)) }) := by
      simp only [delete_user, huid]
    have husers : ∀ u ∈ (delete_user s name).2.users, u.2 ≠ name := by
      intro u hu he
      rw [hdel] at hu
      have hu2 := List.of_mem_filter hu
      have hu1 := List.mem_of_mem_filter hu
      rw [decide_eq_true_iff] at hu2
      exact hu2 (huniq u hu1 he)
    have hatt : ∀ e ∈ (delete_user s name).2.attendance, e.user_id ≠ uid := by
      intro e he
      rw [hdel] at he
      have he2 := List.of_mem_filter he
      rw [decide_eq_true_iff] at he2
      exact he2
    have hfind : userIdOf (delete_user s name).2 name = none := by
      rw [userIdOf, Option.map_eq_none', List.find?_eq_none]
      intro u hu hb
      exact husers u (by rw [hdel] at hu ⊢; exact hu) (by simpa using hb)
    refine ⟨by rw [hdel], husers, hatt, ?_, ?_, ?_⟩
    · rw [dbHistory, hfind]
    · intro hmem
      rw [List.mem_map] at hmem
      rcases hmem with ⟨p, hp, hname⟩
      rw [get_statistics] at hp
      rw [List.mem_insertionSort] at hp
      rw [List.mem_map] at hp
      rcases hp with ⟨u, hu, hup⟩
      exact husers u (by rw [hdel]; rw [hdel] at hu; exact hu)
        (by rw [← hup] at hname; simpa using hname)
    · intro pt
      rw [typeCount, hdel]
      show ((List.filter _ (s.attendance.filter _)).filter _).length = _
      simp only [List.filter_filter]

/-- Witness for C8 at a concrete two-user database: deleting `carol`
fails, deleting `alice` (id 1) succeeds, empties her history and removes
her from the statistics. -/
theorem delete_user_cascade_witness :
    (userIdOf ⟨[(1, "alice"), (2, "bob")], 3,
        [⟨1, PunchType.pIn, ⟨0, 0⟩, 0⟩, ⟨2, PunchType.pOut, ⟨0, 50⟩, 0⟩]⟩
        "carol" = none ∧
      delete_user ⟨[(1, "alice"), (2, "bob")], 3,
        [⟨1, PunchType.pIn, ⟨0, 0⟩, 0⟩, ⟨2, PunchType.pOut, ⟨0, 50⟩, 0⟩]⟩
        "carol" = ((false, "User not found"),
          ⟨[(1, "alice"), (2, "bob")], 3,
           [⟨1, PunchType.pIn, ⟨0, 0⟩, 0⟩, ⟨2, PunchType.pOut, ⟨0, 50⟩, 0⟩]⟩)) ∧
    (userIdOf ⟨[(1, "alice"), (2, "bob")], 3,
        [⟨1, PunchType.pIn, ⟨0, 0⟩, 0⟩, ⟨2, PunchType.pOut, ⟨0, 50⟩, 0⟩]⟩
        "alice" = some 1 ∧
      dbHistory (delete_user ⟨[(1, "alice"), (2, "bob")], 3,
        [⟨1, PunchType.pIn, ⟨0, 0⟩, 0⟩, ⟨2, PunchType.pOut, ⟨0, 50⟩, 0⟩]⟩
        "alice").2 "alice" 7 ⟨0, 100⟩ = [] ∧
      "alice" ∉ ((get_statistics (delete_user ⟨[(1, "alice"), (2, "bob")], 3,
        [⟨1, PunchType.pIn, ⟨0, 0⟩, 0⟩, ⟨2, PunchType.pOut, ⟨0, 50⟩, 0⟩]⟩
        "alice").2 0 30).by_user.map Prod.fst)) :=
  ⟨⟨by decide,
    (delete_user_cascade ⟨[(1, "alice"), (2, "bob")], 3,
      [⟨1, PunchType.pIn, ⟨0, 0⟩, 0⟩, ⟨2, PunchType.pOut, ⟨0, 50⟩, 0⟩]⟩
      "carol" 7 0 30 ⟨0, 100⟩).1 (by decide)⟩,
   by decide,
   ((delete_user_cascade ⟨[(1, "alice"), (2, "bob")], 3,
      [⟨1, PunchType.pIn, ⟨0, 0⟩, 0⟩, ⟨2, PunchType.pOut, ⟨0, 50⟩, 0⟩]⟩
      "alice" 7 0 30 ⟨0, 100⟩).2 1 (by decide) (by decide)).2.2.2.1,
   ((delete_user_cascade ⟨[(1, "alice"), (2, "bob")], 3,
      [⟨1, PunchType.pIn, ⟨0, 0⟩, 0⟩, ⟨2, PunchType.pOut, ⟨0, 50⟩, 0⟩]⟩
      "alice" 7 0 30 ⟨0, 100⟩).2 1 (by decide) (by decide)).2.2.2.2.1⟩

/-! ## C7 — history -/

instance : IsTotal Nat (fun a b => b ≤ a) := ⟨fun a b => le_total b a⟩

instance : IsTrans Nat (fun a b => b ≤ a) := ⟨fun _ _ _ h1 h2 => le_trans h2 h1⟩

/-- The storage invariant of the JSON tracker: no stored date bucket is
ever empty (so a date with zero events is absent, never present with an
empty list). -/
def JOK (records : JRecords) : Prop :=
  ∀ q ∈ records, ∀ p ∈ q.2, p.2 ≠ ([] : List JEvent)

/-- `punch` preserves the nonempty-buckets invariant: the only bucket it
ever installs is an existing bucket with one record appended. -/
theorem jPunch_preserves_JOK (records : JRecords) (name : String)
    (pt : PunchType) (now : DateTime) (h : JOK records) :
    JOK (jPunch records name pt now).2 := by
  have hr0 : ∀ p ∈ (alookup records name).getD [], p.2 ≠ ([] : List JEvent) := by
    rcases han : alookup records name with _ | r
    · simp
    · rw [Option.getD_some]
      exact h (name, r) (alookup_eq_some_mem han)
  rcases halr : alookup ((alookup records name).getD []) now.day with _ | b
  · -- fresh date bucket: the result stores the user's dict with
    -- the new singleton bucket appended
    have hres : (jPunch records name pt now).2 =
        aset records name
          ((alookup records name).getD [] ++ [(now.day, [⟨pt, now.sec⟩])]) := by
      have hb : alookup (aset ((alookup records name).getD []) now.day
          ([] : List JEvent)) now.day = some [] :=
        alookup_aset_self _ _ _
      simp only [jPunch, halr, Option.isSome_none, Bool.false_eq_true, if_false,
        hb, Option.getD_some, List.getLast?_nil]
      rw [aset_of_alookup_none ([] : List JEvent) halr,
        aset_append_of_alookup_none ([] : List JEvent) _ halr]
      rfl
    rw [hres]
    intro q hq
    rcases mem_aset_elim hq with hq | hq
    · rw [hq]
      intro p hp
      rcases List.mem_append.mp hp with hp | hp
      · exact hr0 p hp
      · rw [List.mem_singleton] at hp
        rw [hp]
        simp
    · exact h q hq
  · rcases hbl : b.getLast? with _ | last
    · -- existing, necessarily empty bucket: appended to
      have hres : (jPunch records name pt now).2 =
          aset records name
            (aset ((alookup records name).getD []) now.day
              (b ++ [⟨pt, now.sec⟩])) := by
        simp only [jPunch, halr, Option.isSome_some, if_true, Option.getD_some, hbl]
      rw [hres]
      intro q hq
      rcases mem_aset_elim hq with hq | hq
      · rw [hq]
        intro p hp
        rcases mem_aset_elim hp with hp | hp
        · rw [hp]; simp
        · exact hr0 p hp
      · exact h q hq
    · by_cases htype : last.type = pt
      · -- same-type repeat: rejected, records unchanged
        have hub : (userBucket records name now.day).getLast? = some last := by
          rw [userBucket, halr]
          exact hbl
        rw [jPunch_reject records name pt now last hub htype]
        exact h
      · have hres : (jPunch records name pt now).2 =
            aset records name
              (aset ((alookup records name).getD []) now.day
                (b ++ [⟨pt, now.sec⟩])) := by
          simp only [jPunch, halr, Option.isSome_some, if_true, Option.getD_some,
            hbl, if_neg htype]
        rw [hres]
        intro q hq
        rcases mem_aset_elim hq with hq | hq
        · rw [hq]
          intro p hp
          rcases mem_aset_elim hp with hp | hp
          · rw [hp]; simp
          · exact hr0 p hp
        · exact h q hq

/-- Bucket contents of the grouping fold: each date's list is whatever the
accumulator already held for that date followed by the matching rows in
row order. -/
theorem groupFold_alookup (rows : List DBEvent) :
    ∀ (h0 : List (Nat × List JEvent)) (d : Nat),
      (alookup (rows.foldl groupStep h0) d).getD [] =
        (alookup h0 d).getD [] ++
          (rows.filter (fun e => e.date == d)).map
            (fun e => (⟨e.punch_type, e.ptime.sec⟩ : JEvent)) := by
  induction rows with
  | nil => intro h0 d; simp
  | cons e rows ih =>
    intro h0 d
    rw [List.foldl_cons, ih]
    by_cases hd : e.date = d
    · rw [show groupStep h0 e =
        aset h0 e.date (((alookup h0 e.date).getD []) ++
          [⟨e.punch_type, e.ptime.sec⟩]) from rfl, hd]
      rw [alookup_aset_self, Option.getD_some]
      simp [hd, List.filter_cons]
    · rw [show groupStep h0 e =
        aset h0 e.date (((alookup h0 e.date).getD []) ++
          [⟨e.punch_type, e.ptime.sec⟩]) from rfl]
      rw [alookup_aset_of_ne _ _ _ _ (fun he => hd he.symm)]
      simp [List.filter_cons, hd]

/-- Every date key the grouping fold produces is a date of the
accumulator or of some row. -/
theorem groupFold_keys_sub (rows : List DBEvent) :
    ∀ (h0 : List (Nat × List JEvent)) (d : Nat),
      d ∈ (rows.foldl groupStep h0).map Prod.fst →
      d ∈ h0.map Prod.fst ∨ d ∈ rows.map (fun e => e.date) := by
  induction rows with
  | nil => intro h0 d hd; exact Or.inl hd
  | cons e rows ih =>
    intro h0 d hd
    rcases ih (groupStep h0 e) d hd with hd | hd
    · rw [groupStep, keys_aset] at hd
      by_cases hm : e.date ∈ h0.map Prod.fst
      · rw [if_pos hm] at hd
        exact Or.inl hd
      · rw [if_neg hm] at hd
        rcases List.mem_append.mp hd with hd | hd
        · exact Or.inl hd
        · rw [List.mem_singleton] at hd
          exact Or.inr (by simp [hd])
    · exact Or.inr (by simp [hd])

/-- The grouping fold never duplicates a date key. -/
theorem groupFold_keys_nodup (rows : List DBEvent) :
    ∀ (h0 : List (Nat × List JEvent)), (h0.map Prod.fst).Nodup →
      ((rows.foldl groupStep h0).map Prod.fst).Nodup := by
  induction rows with
  | nil => intro h0 hn; exact hn
  | cons e rows ih =>
    intro h0 hn
    refine ih (groupStep h0 e) ?_
    rw [groupStep, keys_aset]
    by_cases hm : e.date ∈ h0.map Prod.fst
    · rw [if_pos hm]; exact hn
    · rw [if_neg hm]
      refine List.Nodup.append hn (List.nodup_singleton _) ?_
      intro a ha hb
      rw [List.mem_singleton] at hb
      exact hm (hb ▸ ha)

/-- C7 (refuted as stated for the SQLite tracker): with events on two
dates, 20 days apart, and `days = 7`, the claim requires the history map
to cover the two most recent event-dates `[20, 0]`; `get_user_history` of
`src/database.py` instead restricts to the last 7 calendar days and
returns only date 20.  Moreover within one date it lists events
newest-first (`punch_time DESC`), the reverse of insertion order: two
events at seconds 100 and 200 of date 0 come back as `[200-event,
100-event]`. -/
theorem history_window_counterexample :
    (dbHistory ⟨[(1, "alice")], 2,
        [⟨1, PunchType.pIn, ⟨0, 100⟩, 0⟩, ⟨1, PunchType.pIn, ⟨20, 100⟩, 20⟩]⟩
        "alice" 7 ⟨20, 200⟩).map Prod.fst = [20] ∧
    (List.insertionSort (fun a b => b ≤ a)
        (((⟨[(1, "alice")], 2,
          [⟨1, PunchType.pIn, ⟨0, 100⟩, 0⟩, ⟨1, PunchType.pIn, ⟨20, 100⟩, 20⟩]⟩ :
            DBState).attendance.map (fun e => e.date)).dedup)).take 7 =
      [20, 0] ∧
    ([20] : List Nat) ≠ [20, 0] ∧
    dbHistory ⟨[(1, "alice")], 2,
        [⟨1, PunchType.pIn, ⟨0, 100⟩, 0⟩, ⟨1, PunchType.pOut, ⟨0, 200⟩, 0⟩]⟩
        "alice" 7 ⟨0, 300⟩ =
      [(0, [⟨PunchType.pOut, 200⟩, ⟨PunchType.pIn, 100⟩])] ∧
    ([(⟨PunchType.pOut, 200⟩ : JEvent), ⟨PunchType.pIn, 100⟩] : List JEvent) ≠
      [⟨PunchType.pIn, 100⟩, ⟨PunchType.pOut, 200⟩] := by
  decide

/-- C7 (amended): the JSON tracker's `get_user_history` satisfies the
claim — its result covers exactly the `min days` most recent event-dates,
newest-first and without duplicates, every omitted event-date is older
than every covered one, each covered date maps to its stored nonempty
record list, stored buckets are never empty (`punch` preserves that
invariant, establishing the hypotheses for every reachable store), and an
accepted punch appends at the end of its date's bucket, so bucket order is
insertion/timestamp order.  The SQLite tracker diverges: its history
covers only event-dates within the last `days` calendar days (each with a
nonempty list), and lists each date's events newest-first — the reverse of
insertion order. -/
theorem history_spec (records : JRecords) (name : String) (days : Nat)
    (r : List (Nat × List JEvent))
    (halook : alookup records name = some r)
    (hkeys : (r.map Prod.fst).Nodup)
    (hne : ∀ p ∈ r, p.2 ≠ ([] : List JEvent)) :
    ((jHistory records name days).map Prod.fst).Sorted (fun a b : Nat => b ≤ a) ∧
    ((jHistory records name days).map Prod.fst).Nodup ∧
    ((jHistory records name days).map Prod.fst).length = min days r.length ∧
    (∀ d ∈ (jHistory records name days).map Prod.fst, d ∈ r.map Prod.fst) ∧
    (∀ d ∈ r.map Prod.fst, d ∉ (jHistory records name days).map Prod.fst →
      ∀ d2 ∈ (jHistory records name days).map Prod.fst, d ≤ d2) ∧
    (∀ p ∈ jHistory records name days, alookup r p.1 = some p.2 ∧ p.2 ≠ []) ∧
    (JOK ([] : JRecords) ∧
      (∀ (recs : JRecords) (nm : String) (pt : PunchType) (now : DateTime),
        JOK recs → JOK (jPunch recs nm pt now).2) ∧
      (∀ (recs : JRecords) (nm : String) (pt : PunchType) (now : DateTime),
        (∀ last, (userBucket recs nm now.day).getLast? = some last →
          last.type ≠ pt) →
        userBucket (jPunch recs nm pt now).2 nm now.day =
          userBucket recs nm now.day ++ [⟨pt, now.sec⟩])) ∧
    (∀ (s : DBState) (nm : String) (days2 : Nat) (now : DateTime),
      (∀ e ∈ s.attendance, e.date = e.ptime.day) →
      ∀ p ∈ dbHistory s nm days2 now,
        now.day - days2 ≤ p.1 ∧ p.2 ≠ [] ∧
        p.2.Sorted (fun a b : JEvent => b.time ≤ a.time)) := by
  have hunf : jHistory records name days =
      ((List.insertionSort (fun a b => b ≤ a) (r.map Prod.fst)).take days).map
        (fun d => (d, (alookup r d).getD [])) := by
    simp only [jHistory, halook]
  have hkeysEq : (jHistory records name days).map Prod.fst =
      (List.insertionSort (fun a b => b ≤ a) (r.map Prod.fst)).take days := by
    rw [hunf, List.map_map]
    have hid : (Prod.fst ∘ fun d : Nat => (d, (alookup r d).getD [])) = id := rfl
    rw [hid, List.map_id]
  have hsortL := List.sorted_insertionSort (fun a b : Nat => b ≤ a)
    (r.map Prod.fst)
  have hperm := List.perm_insertionSort (fun a b : Nat => b ≤ a)
    (r.map Prod.fst)
  refine ⟨?_, ?_, ?_, ?_, ?_, ?_, ?_, ?_⟩
  · rw [hkeysEq]
    exact hsortL.sublist (List.take_sublist _ _)
  · rw [hkeysEq]
    exact (hperm.nodup_iff.mpr hkeys).sublist (List.take_sublist _ _)
  · rw [hkeysEq, List.length_take, hperm.length_eq, List.length_map]
  · intro d hd
    rw [hkeysEq] at hd
    have := List.mem_of_mem_take hd
    rw [List.mem_insertionSort] at this
    exact this
  · intro d hdr hdn d2 hd2
    rw [hkeysEq] at hdn hd2
    have hdL : d ∈ List.insertionSort (fun a b => b ≤ a) (r.map Prod.fst) := by
      rw [List.mem_insertionSort]
      exact hdr
    have hsplit : d ∈ (List.insertionSort (fun a b => b ≤ a)
          (r.map Prod.fst)).take days ++
        (List.insertionSort (fun a b => b ≤ a) (r.map Prod.fst)).drop days := by
      rw [List.take_append_drop]
      exact hdL
    have hdrop : d ∈ (List.insertionSort (fun a b => b ≤ a)
        (r.map Prod.fst)).drop days := by
      rcases List.mem_append.mp hsplit with h | h
      · exact absurd h hdn
      · exact h
    have hpw := hsortL
    rw [List.Sorted, ← List.take_append_drop days
      (List.insertionSort (fun a b => b ≤ a) (r.map Prod.fst)),
      List.pairwise_append] at hpw
    exact hpw.2.2 d2 hd2 d hdrop
  · intro p hp
    rw [hunf] at hp
    rcases List.mem_map.mp hp with ⟨d, hd, hpd⟩
    have hdr : d ∈ r.map Prod.fst := by
      have := List.mem_of_mem_take hd
      rw [List.mem_insertionSort] at this
      exact this
    rcases halr : alookup r d with _ | evs
    · exact absurd hdr ((alookup_eq_none_iff r d).mp halr)
    · have hpeq : p = (d, evs) := by rw [← hpd, halr]; rfl
      rw [hpeq]
      exact ⟨halr, hne (d, evs) (alookup_eq_some_mem halr)⟩
  · refine ⟨?_, jPunch_preserves_JOK, ?_⟩
    · intro q hq
      exact absurd hq (List.not_mem_nil q)
    · intro recs nm pt now h
      exact (jPunch_accept recs nm pt now h).2.1
  · intro s nm days2 now hcons p hp
    rcases huid : userIdOf s nm with _ | uid
    · rw [dbHistory, huid] at hp
      exact absurd hp (List.not_mem_nil p)
    · have hdh : dbHistory s nm days2 now =
          groupByDate (List.insertionSort rowLe (s.attendance.filter
            (fun e => decide (e.user_id = uid ∧ now.day - days2 ≤ e.date)))) := by
        simp only [dbHistory, huid]
      rw [hdh] at hp
      set rows := List.insertionSort rowLe (s.attendance.filter
        (fun e => decide (e.user_id = uid ∧ now.day - days2 ≤ e.date))) with hrows
      have hrow_att : ∀ e ∈ rows, e ∈ s.attendance ∧ e.user_id = uid ∧
          now.day - days2 ≤ e.date := by
        intro e he
        rw [hrows, List.mem_insertionSort] at he
        refine ⟨List.mem_of_mem_filter he, ?_⟩
        have := List.of_mem_filter he
        rwa [decide_eq_true_iff] at this
      have hval : p.2 = (rows.filter (fun e => e.date == p.1)).map
          (fun e => (⟨e.punch_type, e.ptime.sec⟩ : JEvent)) := by
        have hnodup : ((groupByDate rows).map Prod.fst).Nodup :=
          groupFold_keys_nodup rows [] (by simp)
        have := alookup_of_mem_nodupKeys hnodup hp
        have hgd := groupFold_alookup rows [] p.1
        rw [show List.foldl groupStep [] rows = groupByDate rows from rfl,
          this] at hgd
        simpa using hgd
      have hkey : p.1 ∈ rows.map (fun e => e.date) := by
        have hmem : p.1 ∈ (groupByDate rows).map Prod.fst :=
          List.mem_map_of_mem _ hp
        rcases groupFold_keys_sub rows [] p.1 hmem with h | h
        · simp at h
        · exact h
      rcases List.mem_map.mp hkey with ⟨e, he, hed⟩
      refine ⟨?_, ?_, ?_⟩
      · rw [← hed]
        exact (hrow_att e he).2.2
      · rw [hval]
        have : e ∈ rows.filter (fun e => e.date == p.1) :=
          List.mem_filter.mpr ⟨he, by simp [hed]⟩
        intro hnil
        rw [List.map_eq_nil_iff] at hnil
        rw [hnil] at this
        exact absurd this (List.not_mem_nil e)
      · rw [hval]
        have hsorted : rows.Pairwise rowLe := List.sorted_insertionSort rowLe _
        have hfil : (rows.filter (fun e => e.date == p.1)).Pairwise rowLe :=
          hsorted.filter _
        have hdates : ∀ a ∈ rows.filter (fun e => e.date == p.1),
            a.date = p.1 ∧ a.date = a.ptime.day := by
          intro a ha
          have h1 := List.of_mem_filter ha
          have h2 : a.date = p.1 := by simpa using h1
          exact ⟨h2, hcons a (hrow_att a (List.mem_of_mem_filter ha)).1⟩
        rw [List.Sorted, List.pairwise_map]
        refine hfil.imp_of_mem ?_
        intro a b ha hb hab
        rcases hdates a ha with ⟨ha1, ha2⟩
        rcases hdates b hb with ⟨hb1, hb2⟩
        rcases hab with h | ⟨h1, h2⟩
        · rw [ha1, hb1] at h
          exact absurd h (lt_irrefl _)
        · show b.ptime.sec ≤ a.ptime.sec
          rw [DateTime.epoch, DateTime.epoch, ← ha2, ← hb2, ha1, hb1] at h2
          omega

/-- Witness for C7's amended theorem: a user with one event on each of two
dates; history over 7 days lists both dates newest-first. -/
theorem history_spec_witness :
    (alookup ([("alice", [(0, [⟨PunchType.pIn, 100⟩]),
        (1, [⟨PunchType.pOut, 200⟩])])] : JRecords) "alice" =
      some [(0, [⟨PunchType.pIn, 100⟩]), (1, [⟨PunchType.pOut, 200⟩])] ∧
      ((([(0, [⟨PunchType.pIn, 100⟩]), (1, [⟨PunchType.pOut, 200⟩])] :
        List (Nat × List JEvent)).map Prod.fst).Nodup) ∧
      (∀ p ∈ ([(0, [⟨PunchType.pIn, 100⟩]), (1, [⟨PunchType.pOut, 200⟩])] :
        List (Nat × List JEvent)), p.2 ≠ ([] : List JEvent))) ∧
    ((jHistory ([("alice", [(0, [⟨PunchType.pIn, 100⟩]),
        (1, [⟨PunchType.pOut, 200⟩])])] : JRecords) "alice" 7).map
      Prod.fst).Sorted (fun a b : Nat => b ≤ a) :=
  ⟨⟨by decide, by decide, by decide⟩,
   (history_spec ([("alice", [(0, [⟨PunchType.pIn, 100⟩]),
      (1, [⟨PunchType.pOut, 200⟩])])] : JRecords) "alice" 7
      ([(0, [⟨PunchType.pIn, 100⟩]), (1, [⟨PunchType.pOut, 200⟩])] :
        List (Nat × List JEvent))
      (by decide) (by decide) (by decide)).1⟩

end Spec2Proof
